import Mathlib

/-!
Verification development for the FreeRTOS-CLI repository (src/cli.c, src/cli.h,
src/cli_cmd.c, src/cli_cmd.h).

The C sources are shallowly embedded: the per-byte receive switch of `cliTask`
becomes a step function on a line-assembler state, the authentication state
machine `cliAuthenticate` becomes a transition function on a session state plus
a fuel-indexed loop runner, `CliStartup` becomes a function from the outcomes of
its five environment calls to its returned status, the command dispatch loop of
`cliTask` becomes a fuel-indexed runner over streams of interpreter results and
transmission-status events, and the two command callbacks of `cli_cmd.c` become
functions reporting the bytes they store and the value they return.

Bytes and C `char` values are modelled as `Nat`; buffers are lists of length
`CLI_RX_BUFFER_SIZE`; a C string read of a buffer is the prefix before the
first NUL.
-/

set_option maxRecDepth 10000

namespace FreeRTOSCLI

/-! ### Constants from src/cli.h -/

def CLI_RX_BUFFER_SIZE : Nat := 256

def CLI_TX_BUFFER_SIZE : Nat := 256

def CLI_END_CHAR : Nat := 0x0D

def CLI_BS_CHAR : Nat := 0x7F

def CLI_NULL_CHAR : Nat := 0x00

/-- `PASSWORD "1234"` from cli.h, as ASCII bytes. -/
def PASSWORD : List Nat := [0x31, 0x32, 0x33, 0x34]

/-- `FSM_LOG_IN = 0` (waiting for password input). -/
def FSM_LOG_IN : Nat := 0

/-- `FSM_LOG_OUT = 1` (successful authentication). -/
def FSM_LOG_OUT : Nat := 1

/-- `FSM_INPUT = 2` (input password). -/
def FSM_INPUT : Nat := 2

/-- `FSM_PROCESS = 3` (processing entered password). -/
def FSM_PROCESS : Nat := 3

/-- `FSM_ERR = 4` (error, incorrect password). -/
def FSM_ERR : Nat := 4

/-- `CLI_TX_COMPLETE = 1` from `CliTxStatus_e`. -/
def CLI_TX_COMPLETE : Nat := 1

/-- `CLI_MSG_ERR = 2` from `CliTxStatus_e`. -/
def CLI_MSG_ERR : Nat := 2

/-! ### Line Assembler: the per-byte switch of `cliTask` (cli.c:226-275) -/

/-- The fields of `cliInstance` that the per-byte switch of `cliTask` touches:
`rxBuffer` (a 256-byte array, modelled as a list) and `rxIndex`. -/
structure LineState where
  rxBuffer : List Nat
  rxIndex : Nat
deriving DecidableEq

/-- One iteration of the `switch (cliInstance.rxChar)` in `cliTask`
(cli.c:226-275), restricted to its effect on `rxBuffer` and `rxIndex`:
`CLI_END_CHAR` writes NUL at `rxIndex` and (after the dispatch loop, which does
not modify `rxBuffer`) resets `rxIndex` to 0; `CLI_BS_CHAR` decrements
`rxIndex` and clears the byte there when `rxIndex > 0`; any other byte is
stored at `rxIndex` when `rxIndex < CLI_RX_BUFFER_SIZE - 1`. -/
def lineStep (s : LineState) (c : Nat) : LineState :=
  if c = CLI_END_CHAR then
    ⟨s.rxBuffer.set s.rxIndex CLI_NULL_CHAR, 0⟩
  else if c = CLI_BS_CHAR then
    if s.rxIndex > 0 then
      ⟨s.rxBuffer.set (s.rxIndex - 1) CLI_NULL_CHAR, s.rxIndex - 1⟩
    else s
  else
    if s.rxIndex < CLI_RX_BUFFER_SIZE - 1 then
      ⟨s.rxBuffer.set s.rxIndex c, s.rxIndex + 1⟩
    else s

/-- The state of `rxBuffer`/`rxIndex` right after `CliStartup` (cli.c:131-135):
buffer zeroed by `memset`, index 0. -/
def initLineState : LineState := ⟨List.replicate CLI_RX_BUFFER_SIZE 0, 0⟩

/-- Deliver a sequence of bytes one at a time to the per-byte switch. -/
def processBytes (s : LineState) (bytes : List Nat) : LineState :=
  List.foldl lineStep s bytes

/-- Spec-side assembler, following the specification's words (spec.md §4.3,
§8): the byte sequence with backspaces applied left to right, each backspace
removing the immediately preceding character (a no-op on an empty line), and
any other byte appended only while the line is shorter than capacity − 1. -/
def specAssemble (acc : List Nat) : List Nat → List Nat
  | [] => acc
  | c :: cs =>
    if c = CLI_BS_CHAR then specAssemble acc.dropLast cs
    else if acc.length < CLI_RX_BUFFER_SIZE - 1 then specAssemble (acc ++ [c]) cs
    else specAssemble acc cs

lemma specAssemble_length_le (bytes : List Nat) :
    ∀ acc : List Nat, acc.length ≤ 255 → (specAssemble acc bytes).length ≤ 255 := by
  induction bytes with
  | nil => intro acc h; simpa [specAssemble] using h
  | cons c cs ih =>
    intro acc h
    by_cases hbs : c = CLI_BS_CHAR
    · simp only [specAssemble, if_pos hbs]
      exact ih _ (le_trans (List.length_dropLast acc ▸ Nat.sub_le _ _) h)
    · by_cases hlt : acc.length < CLI_RX_BUFFER_SIZE - 1
      · simp only [specAssemble, if_neg hbs, if_pos hlt]
        refine ih _ ?_
        have hl : acc.length < 255 := by simpa [CLI_RX_BUFFER_SIZE] using hlt
        simp only [List.length_append, List.length_cons, List.length_nil]
        omega
      · simp only [specAssemble, if_neg hbs, if_neg hlt]
        exact ih _ h

lemma set_append_cons (as : List Nat) (a x : Nat) (r : List Nat) :
    (as ++ a :: r).set as.length x = as ++ x :: r := by
  induction as with
  | nil => rfl
  | cons b bs ih => simp [ih]

/-- A buffer holding the line `acc` NUL-padded to full capacity. -/
def padBuf (acc : List Nat) : List Nat :=
  acc ++ List.replicate (CLI_RX_BUFFER_SIZE - acc.length) 0

lemma padBuf_concat (as : List Nat) (a : Nat) :
    padBuf (as ++ [a])
      = as ++ a :: List.replicate (CLI_RX_BUFFER_SIZE - (as.length + 1)) 0 := by
  simp [padBuf, List.append_assoc]

lemma padBuf_zero_cons (as : List Nat) (h : as.length ≤ 255) :
    padBuf as = as ++ 0 :: List.replicate (CLI_RX_BUFFER_SIZE - (as.length + 1)) 0 := by
  have h1 : CLI_RX_BUFFER_SIZE - as.length = (CLI_RX_BUFFER_SIZE - (as.length + 1)) + 1 := by
    simp only [CLI_RX_BUFFER_SIZE]; omega
  simp [padBuf, h1, List.replicate_succ]

/-- Invariant of the per-byte switch against the spec-side assembler, for bytes
containing no carriage return. -/
lemma processBytes_spec (bytes : List Nat) (hb : CLI_END_CHAR ∉ bytes) :
    ∀ acc : List Nat, acc.length ≤ 255 →
      processBytes ⟨padBuf acc, acc.length⟩ bytes
        = ⟨padBuf (specAssemble acc bytes), (specAssemble acc bytes).length⟩ := by
  induction bytes with
  | nil => intro acc h; simp [processBytes, specAssemble]
  | cons c cs ih =>
    intro acc h
    have hc : c ≠ CLI_END_CHAR := fun hcc => hb (hcc ▸ List.mem_cons_self c cs)
    have hcs : CLI_END_CHAR ∉ cs := fun hm => hb (List.mem_cons_of_mem c hm)
    by_cases hbs : c = CLI_BS_CHAR
    · subst hbs
      rcases acc.eq_nil_or_concat with hnil | ⟨as, a, hacc⟩
      · subst hnil
        have hstep : lineStep ⟨padBuf [], 0⟩ CLI_BS_CHAR = ⟨padBuf [], 0⟩ := by
          simp [lineStep, hc]
        calc processBytes ⟨padBuf [], [].length⟩ (CLI_BS_CHAR :: cs)
            = processBytes ⟨padBuf [], 0⟩ cs := by
              simp only [processBytes, List.foldl_cons, List.length_nil, hstep]
          _ = ⟨padBuf (specAssemble [] cs), (specAssemble [] cs).length⟩ := ih hcs [] (by simp)
          _ = ⟨padBuf (specAssemble [] (CLI_BS_CHAR :: cs)),
                (specAssemble [] (CLI_BS_CHAR :: cs)).length⟩ := by
              simp [specAssemble]
      · rw [List.concat_eq_append] at hacc
        subst hacc
        have hle : as.length ≤ 255 := by
          have h1 : (as ++ [a]).length = as.length + 1 := by simp
          omega
        have hstep :
            lineStep ⟨padBuf (as ++ [a]), (as ++ [a]).length⟩ CLI_BS_CHAR
              = ⟨padBuf as, as.length⟩ := by
          have hlen : (as ++ [a]).length = as.length + 1 := by simp
          simp only [lineStep, if_neg hc, if_pos rfl, hlen]
          rw [if_pos (Nat.succ_pos as.length)]
          have hset : (padBuf (as ++ [a])).set as.length CLI_NULL_CHAR
              = as ++ 0 :: List.replicate (CLI_RX_BUFFER_SIZE - (as.length + 1)) 0 := by
            rw [padBuf_concat, set_append_cons]
            simp [CLI_NULL_CHAR]
          simp [hset, padBuf_zero_cons as hle]
        have hdrop : (as ++ [a]).dropLast = as := by simp
        calc processBytes ⟨padBuf (as ++ [a]), (as ++ [a]).length⟩ (CLI_BS_CHAR :: cs)
            = processBytes ⟨padBuf as, as.length⟩ cs := by
              simp only [processBytes, List.foldl_cons, hstep]
          _ = ⟨padBuf (specAssemble as cs), (specAssemble as cs).length⟩ := ih hcs as hle
          _ = ⟨padBuf (specAssemble (as ++ [a]) (CLI_BS_CHAR :: cs)),
                (specAssemble (as ++ [a]) (CLI_BS_CHAR :: cs)).length⟩ := by
              simp [specAssemble, hdrop]
    · by_cases hlt : acc.length < CLI_RX_BUFFER_SIZE - 1
      · have hl : acc.length < 255 := by simpa [CLI_RX_BUFFER_SIZE] using hlt
        have hstep : lineStep ⟨padBuf acc, acc.length⟩ c
            = ⟨padBuf (acc ++ [c]), (acc ++ [c]).length⟩ := by
          simp only [lineStep, if_neg hc, if_neg hbs, if_pos hlt]
          have hset : (padBuf acc).set acc.length c
              = acc ++ c :: List.replicate (CLI_RX_BUFFER_SIZE - (acc.length + 1)) 0 := by
            rw [padBuf_zero_cons acc (Nat.le_of_lt hl), set_append_cons]
          simp [hset, padBuf_concat]
        calc processBytes ⟨padBuf acc, acc.length⟩ (c :: cs)
            = processBytes ⟨padBuf (acc ++ [c]), (acc ++ [c]).length⟩ cs := by
              simp only [processBytes, List.foldl_cons, hstep]
          _ = ⟨padBuf (specAssemble (acc ++ [c]) cs), (specAssemble (acc ++ [c]) cs).length⟩ := by
              refine ih hcs (acc ++ [c]) ?_
              simp only [List.length_append, List.length_cons, List.length_nil]
              omega
          _ = ⟨padBuf (specAssemble acc (c :: cs)), (specAssemble acc (c :: cs)).length⟩ := by
              simp [specAssemble, hbs, hlt]
      · have hstep : lineStep ⟨padBuf acc, acc.length⟩ c = ⟨padBuf acc, acc.length⟩ := by
          simp [lineStep, hc, hbs, hlt]
        calc processBytes ⟨padBuf acc, acc.length⟩ (c :: cs)
            = processBytes ⟨padBuf acc, acc.length⟩ cs := by
              simp only [processBytes, List.foldl_cons, hstep]
          _ = ⟨padBuf (specAssemble acc cs), (specAssemble acc cs).length⟩ := ih hcs acc h
          _ = ⟨padBuf (specAssemble acc (c :: cs)), (specAssemble acc (c :: cs)).length⟩ := by
              simp [specAssemble, hbs, hlt]

/-- The carriage-return step on a padded buffer: the NUL write at `rxIndex`
lands on an already-NUL byte, and the index resets. -/
lemma lineStep_cr (acc : List Nat) (h : acc.length ≤ 255) :
    lineStep ⟨padBuf acc, acc.length⟩ CLI_END_CHAR = ⟨padBuf acc, 0⟩ := by
  simp only [lineStep, if_pos rfl]
  rw [padBuf_zero_cons acc h, set_append_cons]
  simp [CLI_NULL_CHAR]

/-! ### Auth FSM: `cliAuthenticate` (cli.c:472-529)

`cliAuthenticate` is a `do { switch (cliInstance.authState) { ... } } while (1)`
whose `break` statements all belong to the `switch`, so one loop iteration is
one execution of the switch.  The `case` label at cli.c:497 is malformed (it is
`case` followed directly by statements); the statements under it (cli.c:499-512)
are the password-verification step that the surrounding code reaches from
`FSM_PROCESS`, and they are modelled as the `FSM_PROCESS` branch.  The auth
state is modelled as a `Nat` because C permits values outside the enumerators
of `FSMAuthState_e`.  `cliSendMessage` only performs UART I/O (and writes
`txChar`), so it has no effect on the fields modelled here. -/

/-- The fields of `cliInstance` read or written by `cliAuthenticate`:
`authState`, `rxBuffer`, `rxIndex`. -/
structure AuthSt where
  authState : Nat
  rxBuffer : List Nat
  rxIndex : Nat
deriving DecidableEq

/-- The C string stored in a buffer: the prefix before the first NUL byte
(this is what `strchr`, `strcspn`, `strcmp` operate on). -/
def cStr (l : List Nat) : List Nat := l.takeWhile (fun c => c ≠ 0)

/-- `strchr(buf, c) != NULL` for a non-NUL character `c`: whether `c` occurs
in the C string held in `buf`. -/
def strchrFound (l : List Nat) (c : Nat) : Bool := (cStr l).contains c

/-- `strcspn(buf, "\r\n")`: the length of the initial segment of the C string
in `buf` containing neither carriage return nor line feed. -/
def cspnCRLF (l : List Nat) : Nat :=
  ((cStr l).takeWhile (fun c => c ≠ 0x0D ∧ c ≠ 0x0A)).length

/-- One execution of the `switch (cliInstance.authState)` of `cliAuthenticate`
(cli.c:476-527), i.e. one iteration of its `do { ... } while (1)` loop:
`FSM_LOG_IN` clears the buffer, sends the prompt, resets `rxIndex`, and moves
to `FSM_INPUT`; `FSM_INPUT` moves to `FSM_PROCESS` exactly when `strchr` finds
a line feed in the buffer; `FSM_PROCESS` (the statements under the malformed
label, cli.c:499-512) writes NUL at `strcspn(buf, "\r\n")`, then on `strcmp`
equality with `PASSWORD` clears the buffer and moves to `FSM_LOG_OUT`, else
moves to `FSM_ERR`; `FSM_ERR` sends the failure message, clears the buffer,
resets `rxIndex`, and moves to `FSM_LOG_IN`; every other value falls to the
`default` branch, which sets `FSM_ERR`. -/
def authSwitch (s : AuthSt) : AuthSt :=
  if s.authState = FSM_LOG_IN then
    ⟨FSM_INPUT, List.replicate CLI_RX_BUFFER_SIZE 0, 0⟩
  else if s.authState = FSM_INPUT then
    if strchrFound s.rxBuffer 0x0A then ⟨FSM_PROCESS, s.rxBuffer, s.rxIndex⟩ else s
  else if s.authState = FSM_PROCESS then
    let buf1 := s.rxBuffer.set (cspnCRLF s.rxBuffer) 0
    if cStr buf1 = PASSWORD then
      ⟨FSM_LOG_OUT, List.replicate CLI_RX_BUFFER_SIZE 0, s.rxIndex⟩
    else
      ⟨FSM_ERR, buf1, s.rxIndex⟩
  else if s.authState = FSM_ERR then
    ⟨FSM_LOG_IN, List.replicate CLI_RX_BUFFER_SIZE 0, 0⟩
  else
    ⟨FSM_ERR, s.rxBuffer, s.rxIndex⟩

/-- Runs the `do { ... } while (1)` loop of `cliAuthenticate` for `fuel`
iterations.  The loop body contains no `return`, no `goto`, and no `break`
bound to the loop (each `break` exits the `switch`), so no iteration count can
make the function return: a returned final state would be `some`, and fuel
exhaustion with the loop still running is `none`. -/
def cliAuthenticateRun : Nat → AuthSt → Option AuthSt
  | 0, _ => none
  | fuel + 1, s => cliAuthenticateRun fuel (authSwitch s)

/-- Spec-side stripping of trailing CR/LF, following the specification's words
("strip trailing line-ending characters", spec.md §4.5). -/
def stripTrailingCRLF (l : List Nat) : List Nat :=
  (l.reverse.dropWhile (fun c => c = 0x0D ∨ c = 0x0A)).reverse

/-- What the `FSM_PROCESS` step actually compares against the secret: the
collected line truncated at its first CR or LF character. -/
def truncFirstCRLF (l : List Nat) : List Nat :=
  l.takeWhile (fun c => c ≠ 0x0D ∧ c ≠ 0x0A)

/-! ### `CliStartup` (cli.c:105-195) -/

/-- Outcomes of the environment calls `CliStartup` makes, in program order:
`usart_async_get_io_descriptor` (result code and whether the stored descriptor
is NULL), the two `xQueueCreate` calls, the three
`usart_async_register_callback` calls, `usart_async_enable`, and
`xTaskCreate`.  `ERR_NONE` is 0 and `pdPASS` corresponds to `true`. -/
structure StartupEnv where
  ioResult : Int
  ioIsNull : Bool
  rxQueueOk : Bool
  txQueueOk : Bool
  rxCbStatus : Int
  txCbStatus : Int
  errCbStatus : Int
  uartEnableStatus : Int
  taskCreatePassed : Bool
deriving DecidableEq

/-- What `CliStartup` produces: the returned `status` and whether the Session
Task (`cliTask`) was created. -/
structure StartupResult where
  status : Int
  taskCreated : Bool
deriving DecidableEq

/-- `CliStartup` (cli.c:105-195) as a function of its environment outcomes.
The local `status` starts at 0; the descriptor failure `break`s out of the
`do { ... } while (0)` without assigning `status`, so it returns 0; queue
failure returns −1, callback-registration failure −2, UART-enable failure −3,
task-creation failure −4; full success returns 0 with the task created. -/
def CliStartup (env : StartupEnv) : StartupResult :=
  if env.ioResult ≠ 0 ∨ env.ioIsNull then ⟨0, false⟩
  else if env.rxQueueOk = false ∨ env.txQueueOk = false then ⟨-1, false⟩
  else if env.rxCbStatus ≠ 0 ∨ env.txCbStatus ≠ 0 ∨ env.errCbStatus ≠ 0 then ⟨-2, false⟩
  else if env.uartEnableStatus ≠ 0 then ⟨-3, false⟩
  else if env.taskCreatePassed = false then ⟨-4, false⟩
  else ⟨0, true⟩

/-! ### Command Dispatch Loop: the `CLI_END_CHAR` case of `cliTask`
(cli.c:228-258)

The loop repeatedly calls `FreeRTOS_CLIProcessCommand` (modelled as the stream
`interp`, giving the `returnStatus` of the k-th call), switches to TX mode,
writes the response buffer, and waits up to 1000 ticks on `txQueue` (modelled
as the stream `statuses`: `some v` when an event `v` is consumed, `none` on
timeout).  `queueBuff` is declared fresh as 0 each iteration, so a timeout
leaves it 0.  The loop breaks exactly when `returnStatus == pdFALSE` or
`queueBuff == 2`; afterwards `cliTask` switches back to RX mode and resets
`rxIndex` to 0. -/

/-- The value of `queueBuff` after the `xQueueReceive(txQueue, &queueBuff, 1000)`
call: the consumed event, or the initial 0 when the wait timed out. -/
def queueBuffAfter : Option Nat → Nat
  | none => 0
  | some v => v

/-- Runs the `do { ... } while (1)` dispatch loop starting at its `k`-th
iteration with `fuel` iterations allowed.  `some m` means the loop broke after
its iterations `k, k+1, ..., m-1` (so `m` counts interpreter invocations and
`io_write` calls from iteration 0); `none` means fuel ran out. -/
def dispatchRun (interp : Nat → Bool) (statuses : Nat → Option Nat) :
    Nat → Nat → Option Nat
  | 0, _ => none
  | fuel + 1, k =>
    if interp k = false ∨ queueBuffAfter (statuses k) = CLI_MSG_ERR then some (k + 1)
    else dispatchRun interp statuses fuel (k + 1)

/-- `Cli_UartMode_e` from cli.h. -/
inductive CliUartMode where
  | UART_RX_MODE : CliUartMode
  | UART_TX_MODE : CliUartMode
deriving DecidableEq

/-- Observable outcome of the whole `CLI_END_CHAR` case: how many `io_write`
calls were made (= interpreter invocations), the UART direction mode after the
case finishes, and the final `rxIndex`. -/
structure CrOutcome where
  writes : Nat
  finalMode : CliUartMode
  finalRxIndex : Nat
deriving DecidableEq

/-- The `CLI_END_CHAR` case of `cliTask` from loop entry (cli.c:230-258): run
the dispatch loop; when it breaks, `cliSetUartDirectionMode(UART_RX_MODE)` is
called and `rxIndex` is set to 0. -/
def crDispatch (interp : Nat → Bool) (statuses : Nat → Option Nat) (fuel : Nat) :
    Option CrOutcome :=
  (dispatchRun interp statuses fuel 0).map
    (fun m => ⟨m, CliUartMode.UART_RX_MODE, 0⟩)

/-! ### Command callbacks (cli_cmd.c:94-134) -/

/-- The bytes of `static char hello[] = "Hello world \r\n"`. -/
def helloMsg : List Nat :=
  [72, 101, 108, 108, 111, 32, 119, 111, 114, 108, 100, 32, 13, 10]

/-- The bytes of `static char version[] = "CLI Version 1.0.0 \r\n"`. -/
def versionMsg : List Nat :=
  [67, 76, 73, 32, 86, 101, 114, 115, 105, 111, 110, 32, 49, 46, 48, 46, 48, 32, 13, 10]

/-- `cliCallbackHelloCommand` (cli_cmd.c:94-109): given whether `pcWriteBuffer`
is NULL and the value of `xWriteBufferLen`, returns the bytes it stores
through `pcWriteBuffer` (`[]` when it stores nothing; `strcpy` stores the
message plus its terminating NUL) paired with its `BaseType_t` return value
(`false` = `pdFALSE`). -/
def cliCallbackHelloCommand (bufIsNull : Bool) (xWriteBufferLen : Nat) :
    List Nat × Bool :=
  if bufIsNull = true ∨ xWriteBufferLen = 0 then ([], false)
  else if helloMsg.length > xWriteBufferLen then ([], false)
  else (helloMsg ++ [0], false)

/-- `cliCallbackVersionCommand` (cli_cmd.c:119-134), modelled exactly as
`cliCallbackHelloCommand` but for the version message. -/
def cliCallbackVersionCommand (bufIsNull : Bool) (xWriteBufferLen : Nat) :
    List Nat × Bool :=
  if bufIsNull = true ∨ xWriteBufferLen = 0 then ([], false)
  else if versionMsg.length > xWriteBufferLen then ([], false)
  else (versionMsg ++ [0], false)

/-! ### Supporting lemmas for the dispatch loop and the Verifying step -/

lemma queueBuffAfter_eq_err {r : Option Nat} :
    queueBuffAfter r = CLI_MSG_ERR ↔ r = some CLI_MSG_ERR := by
  cases r with
  | none => simp [queueBuffAfter, CLI_MSG_ERR]
  | some v => simp [queueBuffAfter]

lemma dispatchRun_break (interp : Nat → Bool) (statuses : Nat → Option Nat) :
    ∀ fuel k m, dispatchRun interp statuses fuel k = some m →
      k < m ∧ (interp (m - 1) = false ∨ statuses (m - 1) = some CLI_MSG_ERR) ∧
        ∀ j, k ≤ j → j + 1 < m → interp j = true ∧ statuses j ≠ some CLI_MSG_ERR := by
  intro fuel
  induction fuel with
  | zero => intro k m h; cases h
  | succ n ih =>
    intro k m h
    by_cases hbr : interp k = false ∨ queueBuffAfter (statuses k) = CLI_MSG_ERR
    · rw [dispatchRun, if_pos hbr] at h
      obtain rfl : k + 1 = m := Option.some.inj h
      refine ⟨Nat.lt_succ_self k, ?_, ?_⟩
      · simpa [queueBuffAfter_eq_err] using hbr
      · intro j hkj hj1
        omega
    · rw [dispatchRun, if_neg hbr] at h
      obtain ⟨h1, h2, h3⟩ := ih (k + 1) m h
      push_neg at hbr
      refine ⟨by omega, h2, ?_⟩
      intro j hkj hj1
      by_cases hjk : j = k
      · subst hjk
        refine ⟨?_, ?_⟩
        · cases hi : interp j with
          | false => exact absurd hi hbr.1
          | true => rfl
        · intro hs
          apply hbr.2
          rw [hs]
          rfl
      · exact h3 j (by omega) hj1

lemma cStr_cons_ne (c : Nat) (t : List Nat) (hz : c ≠ 0) :
    cStr (c :: t) = c :: cStr t := by
  simp [cStr, List.takeWhile_cons, hz]

/-- Writing NUL at `strcspn(buf, "\r\n")` truncates the C string held in the
buffer at its first CR or LF character. -/
lemma cStr_set_cspn (l : List Nat) :
    cStr (l.set (cspnCRLF l) 0) = truncFirstCRLF (cStr l) := by
  induction l with
  | nil => rfl
  | cons c t ih =>
    by_cases hz : c = 0
    · subst hz
      simp [cStr, cspnCRLF, truncFirstCRLF, List.takeWhile_cons]
    · by_cases hcr : c = 0x0D ∨ c = 0x0A
      · have hstop : ¬(c ≠ 0x0D ∧ c ≠ 0x0A) := by tauto
        have hcspn : cspnCRLF (c :: t) = 0 := by
          simp [cspnCRLF, cStr_cons_ne c t hz, List.takeWhile_cons, hstop]
        rw [hcspn]
        simp [cStr, truncFirstCRLF, cStr_cons_ne c t hz, List.takeWhile_cons, hstop, hz]
      · have hpass : c ≠ 0x0D ∧ c ≠ 0x0A := by tauto
        have hcspn : cspnCRLF (c :: t) = cspnCRLF t + 1 := by
          simp [cspnCRLF, cStr_cons_ne c t hz, List.takeWhile_cons, hpass]
        rw [hcspn]
        have hset : (c :: t).set (cspnCRLF t + 1) 0 = c :: t.set (cspnCRLF t) 0 := rfl
        rw [hset, cStr_cons_ne _ _ hz, ih, cStr_cons_ne c t hz]
        simp [truncFirstCRLF, List.takeWhile_cons, hpass]

/-! ### The claims -/

/-- Claim C1: for every starting authentication state, the internal
`do { ... } while (1)` loop of `cliAuthenticate` never exits — no iteration
count makes the routine return — so once `cliTask` calls it, control never
comes back to the blocking `xQueueReceive` byte wait of the session loop. -/
theorem C1_cliAuthenticate_never_returns (fuel : Nat) (s : AuthSt) :
    cliAuthenticateRun fuel s = none := by
  induction fuel generalizing s with
  | zero => rfl
  | succ n ih => exact ih (authSwitch s)

/-- Claim C2: delivering a byte sequence free of carriage returns one at a
time to the per-byte switch of `cliTask`, followed by the first carriage
return, leaves `rxBuffer` holding exactly that sequence with each backspace
byte (0x7F) removing the immediately preceding character (a no-op at cursor
0), truncated to capacity − 1 = 255 characters, NUL-padded to capacity (hence
NUL-terminated at the carriage return), and resets `rxIndex` to 0. -/
theorem C2_line_assembler_correct (bytes : List Nat) (hb : CLI_END_CHAR ∉ bytes) :
    processBytes initLineState (bytes ++ [CLI_END_CHAR])
      = ⟨padBuf (specAssemble [] bytes), 0⟩ := by
  have h0 : (⟨padBuf ([] : List Nat), ([] : List Nat).length⟩ : LineState)
      = initLineState := by
    simp [initLineState, padBuf]
  have hmain := processBytes_spec bytes hb [] (by simp)
  have hlen := specAssemble_length_le bytes [] (by simp)
  calc processBytes initLineState (bytes ++ [CLI_END_CHAR])
      = lineStep (processBytes initLineState bytes) CLI_END_CHAR := by
        simp [processBytes, List.foldl_append]
    _ = lineStep ⟨padBuf (specAssemble [] bytes), (specAssemble [] bytes).length⟩
          CLI_END_CHAR := by
        rw [← h0, hmain]
    _ = ⟨padBuf (specAssemble [] bytes), 0⟩ := lineStep_cr _ hlen

/-- Witness for claim C2 at the concrete bytes "ab‹backspace›c": the assembled
line is "ac". -/
theorem C2_line_assembler_correct_witness :
    CLI_END_CHAR ∉ [97, 98, 127, 99] ∧
      processBytes initLineState ([97, 98, 127, 99] ++ [CLI_END_CHAR])
        = ⟨padBuf (specAssemble [] [97, 98, 127, 99]), 0⟩ :=
  ⟨by decide, C2_line_assembler_correct [97, 98, 127, 99] (by decide)⟩

/-- Claim C3, code evaluation at the failing input: when
`usart_async_get_io_descriptor` leaves a NULL descriptor, `CliStartup` breaks
out with the local `status` still 0 and returns 0 — the same value a fully
successful run returns — without creating the Session Task; so the
transport-descriptor failure has no distinct negative status code, while the
other four failures do return −1, −2, −3, −4. -/
theorem C3_descriptor_failure_returns_zero :
    CliStartup ⟨0, true, true, true, 0, 0, 0, 0, true⟩ = ⟨0, false⟩ ∧
      CliStartup ⟨0, false, true, true, 0, 0, 0, 0, true⟩ = ⟨0, true⟩ ∧
      CliStartup ⟨0, false, false, true, 0, 0, 0, 0, true⟩ = ⟨-1, false⟩ ∧
      CliStartup ⟨0, false, true, true, 1, 0, 0, 0, true⟩ = ⟨-2, false⟩ ∧
      CliStartup ⟨0, false, true, true, 0, 0, 0, 1, true⟩ = ⟨-3, false⟩ ∧
      CliStartup ⟨0, false, true, true, 0, 0, 0, 0, false⟩ = ⟨-4, false⟩ := by
  refine ⟨rfl, rfl, rfl, ?_, ?_, rfl⟩ <;> decide

/-- The `rxBuffer` contents after the Session Task assembles the bytes
'1','2','3','4' followed by carriage return, starting from the cleared buffer
left by the `FSM_LOG_IN` entry action. -/
def c4Buffer : List Nat :=
  (processBytes initLineState [0x31, 0x32, 0x33, 0x34, CLI_END_CHAR]).rxBuffer

/-- Claim C4, code evaluation at the failing input: after '1','2','3','4',CR
is assembled, the buffer holds "1234" NUL-terminated — the carriage return is
consumed by the Line Assembler and never stored — so the `strchr(buf, '\n')`
condition of the `FSM_INPUT` case never fires: any number of further FSM steps
leaves the state at `FSM_INPUT` (Collecting), and the Authenticated state
`FSM_LOG_OUT` is never reached. -/
theorem C4_cr_terminated_line_never_verified :
    ∀ k : Nat, (authSwitch^[k] ⟨FSM_INPUT, c4Buffer, 0⟩).authState = FSM_INPUT := by
  have hfix : authSwitch ⟨FSM_INPUT, c4Buffer, 0⟩ = ⟨FSM_INPUT, c4Buffer, 0⟩ := by
    decide
  intro k
  induction k with
  | zero => rfl
  | succ n ih => rw [Function.iterate_succ_apply, hfix]; exact ih

/-- The `rxBuffer` contents after the Session Task assembles the bytes
"1234\nX" (a line feed is an ordinary byte to the Line Assembler) followed by
the terminating carriage return. -/
def c5Buffer : List Nat :=
  (processBytes initLineState [0x31, 0x32, 0x33, 0x34, 0x0A, 0x58, CLI_END_CHAR]).rxBuffer

/-- Counterexample to claim C5 as stated: the collected line "1234\nX" is not
equal to the secret after stripping trailing CR/LF characters, yet the
Verifying step moves to the Authenticated state `FSM_LOG_OUT`, not to
Rejected, because the code truncates at the FIRST CR/LF (`strcspn`) rather
than stripping trailing ones. -/
theorem C5_counterexample :
    stripTrailingCRLF (cStr c5Buffer) ≠ PASSWORD ∧
      (authSwitch ⟨FSM_PROCESS, c5Buffer, 6⟩).authState = FSM_LOG_OUT := by
  constructor
  · decide
  · decide

/-- Claim C5 as amended: the Verifying step (`FSM_PROCESS`) truncates the
collected line at its first CR or LF character and compares the result with
the configured secret "1234": on equality the state becomes Authenticated
(`FSM_LOG_OUT`) and the line buffer is cleared; otherwise the state becomes
Rejected (`FSM_ERR`) with the truncation written into the buffer.  For lines
whose only CR/LF characters form a trailing run, truncating at the first
CR/LF coincides with stripping trailing CR/LF. -/
theorem C5_verify_truncates_at_first_crlf (s : AuthSt) (hst : s.authState = FSM_PROCESS) :
    (truncFirstCRLF (cStr s.rxBuffer) = PASSWORD →
        authSwitch s = ⟨FSM_LOG_OUT, List.replicate CLI_RX_BUFFER_SIZE 0, s.rxIndex⟩) ∧
      (truncFirstCRLF (cStr s.rxBuffer) ≠ PASSWORD →
        authSwitch s = ⟨FSM_ERR, s.rxBuffer.set (cspnCRLF s.rxBuffer) 0, s.rxIndex⟩) := by
  obtain ⟨st, buf, idx⟩ := s
  simp only at hst
  subst hst
  have hcode : cStr (buf.set (cspnCRLF buf) 0) = truncFirstCRLF (cStr buf) :=
    cStr_set_cspn buf
  constructor
  · intro hmatch
    simp [authSwitch, FSM_PROCESS, FSM_LOG_IN, FSM_INPUT, hcode, hmatch]
  · intro hmiss
    simp [authSwitch, FSM_PROCESS, FSM_LOG_IN, FSM_INPUT, hcode, hmiss]

/-- Witness for the amended claim C5 at the concrete line "1234\n": truncating
at the first CR/LF yields the secret, so the step authenticates and clears the
buffer. -/
theorem C5_verify_truncates_at_first_crlf_witness :
    authSwitch ⟨FSM_PROCESS, padBuf [0x31, 0x32, 0x33, 0x34, 0x0A], 5⟩
      = ⟨FSM_LOG_OUT, List.replicate CLI_RX_BUFFER_SIZE 0, 5⟩ :=
  (C5_verify_truncates_at_first_crlf
      ⟨FSM_PROCESS, padBuf [0x31, 0x32, 0x33, 0x34, 0x0A], 5⟩ rfl).1 (by decide)

/-- Claim C6, code evaluation at the failing input: the switch of
`cliAuthenticate` has no case labelled `FSM_LOG_OUT`, so a single FSM step
from the Authenticated state falls into the `default` branch and moves the
state to `FSM_ERR` (Rejected): Authenticated is not terminal. -/
theorem C6_authenticated_not_terminal :
    (authSwitch ⟨FSM_LOG_OUT, List.replicate CLI_RX_BUFFER_SIZE 0, 0⟩).authState
        = FSM_ERR ∧
      FSM_ERR ≠ FSM_LOG_OUT := by
  exact ⟨rfl, by decide⟩

/-- Claim C7: whenever the Command Dispatch Loop terminates, say after `m`
iterations, it terminates exactly because at its last iteration the
interpreter reported no more output (`pdFALSE`) or the consumed status event
was `CLI_MSG_ERR` (Failed) — every earlier iteration had `pdTRUE` and no
Failed event, so no write is ever attempted after a Failed status — and on
termination the UART direction is switched back to Receive mode and the line
cursor `rxIndex` is reset to 0. -/
theorem C7_dispatch_loop_termination (interp : Nat → Bool)
    (statuses : Nat → Option Nat) (fuel m : Nat)
    (h : dispatchRun interp statuses fuel 0 = some m) :
    crDispatch interp statuses fuel = some ⟨m, CliUartMode.UART_RX_MODE, 0⟩ ∧
      0 < m ∧
      (interp (m - 1) = false ∨ statuses (m - 1) = some CLI_MSG_ERR) ∧
      ∀ j, j + 1 < m → interp j = true ∧ statuses j ≠ some CLI_MSG_ERR := by
  obtain ⟨h1, h2, h3⟩ := dispatchRun_break interp statuses fuel 0 m h
  exact ⟨by simp [crDispatch, h], h1, h2, fun j hj => h3 j (Nat.zero_le j) hj⟩

/-- Witness for claim C7: a command whose single interpreter call reports no
more output, with a Completed status event, terminates the loop after exactly
one write, in Receive mode with the cursor reset. -/
theorem C7_dispatch_loop_termination_witness :
    crDispatch (fun _ => false) (fun _ => some CLI_TX_COMPLETE) 3
        = some ⟨1, CliUartMode.UART_RX_MODE, 0⟩ ∧
      0 < 1 ∧
      ((fun _ : Nat => false) (1 - 1) = false ∨
        (fun _ : Nat => some CLI_TX_COMPLETE) (1 - 1) = some CLI_MSG_ERR) ∧
      ∀ j, j + 1 < 1 → (fun _ : Nat => false) j = true ∧
        (fun _ : Nat => some CLI_TX_COMPLETE) j ≠ some CLI_MSG_ERR :=
  C7_dispatch_loop_termination (fun _ => false) (fun _ => some CLI_TX_COMPLETE) 3 1
    (by decide)

/-- Counterexample to claim C8 as stated: with the interpreter reporting more
output pending on its first call and the status wait timing out (no event
delivered), the dispatch loop does not abort the command's remaining output:
it performs a second interpreter invocation and a second write, terminating
only at iteration 2. -/
theorem C8_counterexample :
    (fun _ : Nat => (none : Option Nat)) 0 = none ∧
      dispatchRun (fun k => k == 0) (fun _ => none) 10 0 = some 2 ∧
      ¬(2 ≤ 1) := by
  refine ⟨rfl, by decide, by decide⟩

/-- Claim C8 as amended: when the bounded status wait times out with no event
delivered, `queueBuff` keeps its fresh value 0, which the loop treats like a
non-Failed status: it does not abort the command's remaining output — if the
interpreter reported more output the loop continues with the next interpreter
invocation and write, and it breaks only when the interpreter has reported no
more output.  (The bounded 1000-tick wait is what prevents indefinite
blocking, and Receive mode is restored once the loop terminates.) -/
theorem C8_timeout_continues (interp : Nat → Bool) (statuses : Nat → Option Nat)
    (fuel k : Nat) (h : statuses k = none) :
    dispatchRun interp statuses (fuel + 1) k
      = if interp k then dispatchRun interp statuses fuel (k + 1)
        else some (k + 1) := by
  rw [dispatchRun, h]
  cases hi : interp k <;> simp [hi, queueBuffAfter, CLI_MSG_ERR]

/-- Witness for the amended claim C8: a timeout with more output pending makes
the loop continue into its next iteration. -/
theorem C8_timeout_continues_witness :
    (fun _ : Nat => (none : Option Nat)) 0 = none ∧
      dispatchRun (fun _ => true) (fun _ => none) 1 0
        = if (fun _ : Nat => true) 0 then dispatchRun (fun _ => true) (fun _ => none) 0 1
          else some 1 :=
  ⟨rfl, C8_timeout_continues (fun _ => true) (fun _ => none) 0 0 rfl⟩

/-- Claim C9: every auth state value without a case label in the transition
switch (`FSM_LOG_IN`, `FSM_INPUT`, `FSM_PROCESS`, `FSM_ERR`) is sent by a
single FSM step to Rejected (`FSM_ERR`) through the `default` branch: the FSM
is fail-closed on undefined or unhandled state values. -/
theorem C9_fail_closed (s : AuthSt)
    (h1 : s.authState ≠ FSM_LOG_IN) (h2 : s.authState ≠ FSM_INPUT)
    (h3 : s.authState ≠ FSM_PROCESS) (h4 : s.authState ≠ FSM_ERR) :
    (authSwitch s).authState = FSM_ERR := by
  simp [authSwitch, h1, h2, h3, h4]

/-- Witness for claim C9 at the out-of-range state value 99. -/
theorem C9_fail_closed_witness :
    (authSwitch ⟨99, List.replicate CLI_RX_BUFFER_SIZE 0, 0⟩).authState = FSM_ERR :=
  C9_fail_closed ⟨99, List.replicate CLI_RX_BUFFER_SIZE 0, 0⟩
    (by decide) (by decide) (by decide) (by decide)

/-- Counterexample to claim C10 as stated: called with a non-NULL buffer of
capacity `xWriteBufferLen = 14 = strlen(hello)`, the fit check
`strlen(hello) > xWriteBufferLen` does not fire and `strcpy` stores 15 bytes
(the message plus its terminating NUL) — one byte more than the stated
capacity, so the callback does not write at most `xWriteBufferLen` bytes and
does not leave the buffer unchanged when the message does not fit. -/
theorem C10_counterexample :
    (cliCallbackHelloCommand false 14).1.length = 15 ∧
      ¬((cliCallbackHelloCommand false 14).1.length ≤ 14) := by
  constructor
  · decide
  · decide

/-- Claim C10 as amended: each callback always returns `pdFALSE`; it stores
nothing when the buffer is NULL, the capacity is 0, or the message is strictly
longer than the capacity; otherwise it stores the message plus its terminating
NUL — hence at most `xWriteBufferLen + 1` bytes, the terminating NUL exceeding
the stated capacity exactly when `strlen` of the message equals the
capacity. -/
theorem C10_callbacks (bufIsNull : Bool) (len : Nat) :
    ((cliCallbackHelloCommand bufIsNull len).2 = false ∧
      (cliCallbackHelloCommand bufIsNull len).1.length ≤ len + 1 ∧
      ((bufIsNull = true ∨ len = 0 ∨ helloMsg.length > len) →
        (cliCallbackHelloCommand bufIsNull len).1 = []) ∧
      (bufIsNull = false → helloMsg.length ≤ len →
        (cliCallbackHelloCommand bufIsNull len).1 = helloMsg ++ [0])) ∧
    ((cliCallbackVersionCommand bufIsNull len).2 = false ∧
      (cliCallbackVersionCommand bufIsNull len).1.length ≤ len + 1 ∧
      ((bufIsNull = true ∨ len = 0 ∨ versionMsg.length > len) →
        (cliCallbackVersionCommand bufIsNull len).1 = []) ∧
      (bufIsNull = false → versionMsg.length ≤ len →
        (cliCallbackVersionCommand bufIsNull len).1 = versionMsg ++ [0])) := by
  constructor
  · refine ⟨?_, ?_, ?_, ?_⟩
    · unfold cliCallbackHelloCommand; split_ifs <;> rfl
    · unfold cliCallbackHelloCommand
      split_ifs with h1 h2
      · simp
      · simp
      · simp only [List.length_append, List.length_cons, List.length_nil]
        have hle : helloMsg.length ≤ len := Nat.le_of_not_lt h2
        omega
    · intro h
      unfold cliCallbackHelloCommand
      split_ifs with h1 h2
      · rfl
      · rfl
      · exfalso
        rcases h with h | h | h
        · exact h1 (Or.inl h)
        · exact h1 (Or.inr h)
        · exact h2 h
    · intro hb hl
      unfold cliCallbackHelloCommand
      have hc1 : ¬(bufIsNull = true ∨ len = 0) := by
        rintro (h | h)
        · rw [hb] at h; cases h
        · subst h; exact absurd hl (by decide)
      rw [if_neg hc1, if_neg (Nat.not_lt.mpr hl)]
  · refine ⟨?_, ?_, ?_, ?_⟩
    · unfold cliCallbackVersionCommand; split_ifs <;> rfl
    · unfold cliCallbackVersionCommand
      split_ifs with h1 h2
      · simp
      · simp
      · simp only [List.length_append, List.length_cons, List.length_nil]
        have hle : versionMsg.length ≤ len := Nat.le_of_not_lt h2
        omega
    · intro h
      unfold cliCallbackVersionCommand
      split_ifs with h1 h2
      · rfl
      · rfl
      · exfalso
        rcases h with h | h | h
        · exact h1 (Or.inl h)
        · exact h1 (Or.inr h)
        · exact h2 h
    · intro hb hl
      unfold cliCallbackVersionCommand
      have hc1 : ¬(bufIsNull = true ∨ len = 0) := by
        rintro (h | h)
        · rw [hb] at h; cases h
        · subst h; exact absurd hl (by decide)
      rw [if_neg hc1, if_neg (Nat.not_lt.mpr hl)]

/-- Witness for the amended claim C10 at a non-NULL buffer of the capacity the
dispatch loop actually passes (256): the hello message and its NUL are
stored. -/
theorem C10_callbacks_witness :
    (cliCallbackHelloCommand false 256).1 = helloMsg ++ [0] :=
  (C10_callbacks false 256).1.2.2.2 rfl (by decide)

end FreeRTOSCLI
